import Mathlib

/-!
# FluxSand AHRS core — shallow embedding and verification

This file embeds the orientation-estimation core of the FluxSand repository
(`src/component/comp_ahrs.hpp`, `src/component/comp_type.hpp`, `src/bsp/bsp.hpp`
and the AHRS variants among the unnamed sources) in Lean 4 and proves the
spec's testable properties about it.

Modelling conventions:
* `float` arithmetic is idealised as exact real arithmetic over `ℝ`
  (the standard idealisation; rounding effects are outside the model).
  Division follows Lean's convention `x / 0 = 0`.
* The float constant `M_2PI = 6.28318530717958647692f` is idealised as the
  exact real `2 * π`, and `GRAVITY = 9.84f` as the exact rational `9.84`.
* `std::fmodf` followed by the "add `M_2PI` if negative" adjustment in
  `CycleValue::Calculate` is, in exact arithmetic, the map
  `x ↦ x - 2π * ⌊x / 2π⌋`; the wrap-into-`[-π, π)` `while` loops of
  `CycleValue::operator-` are, in exact arithmetic, the map
  `d ↦ d - 2π * ⌊(d + π) / 2π⌋` (each loop iteration shifts by `2π`, and the
  loops stop exactly at the unique representative in `[-π, π)`).
* Timestamps (`std::chrono::microseconds` counts) are natural numbers.
-/

open Real

namespace FluxSand

/-- `Type::Vector3` — 3 floats, idealised as reals. -/
structure Vector3 where
  x : ℝ
  y : ℝ
  z : ℝ

/-- `Type::Quaternion` — `{q0, q1, q2, q3}` floats, idealised as reals. -/
structure Quaternion where
  q0 : ℝ
  q1 : ℝ
  q2 : ℝ
  q3 : ℝ

/-- Sum of squared components, `q0*q0 + q1*q1 + q2*q2 + q3*q3`, exactly the
expression inside `sqrtf` in the quaternion normalisation of `AHRS::Update`. -/
def Quaternion.normSq (q : Quaternion) : ℝ :=
  q.q0 * q.q0 + q.q1 * q.q1 + q.q2 * q.q2 + q.q3 * q.q3

/-- Euclidean norm of the quaternion. -/
noncomputable def Quaternion.norm (q : Quaternion) : ℝ :=
  Real.sqrt q.normSq

/-- The quaternion renormalisation step of `AHRS::Update`:
`recip_norm = 1.0f / sqrtf(q0*q0 + q1*q1 + q2*q2 + q3*q3)` followed by
multiplying every component by `recip_norm`. -/
noncomputable def Quaternion.renorm (q : Quaternion) : Quaternion :=
  let recipNorm : ℝ := 1 / Real.sqrt q.normSq
  ⟨q.q0 * recipNorm, q.q1 * recipNorm, q.q2 * recipNorm, q.q3 * recipNorm⟩

/-! ## `Type::CycleValue` (`comp_type.hpp`) -/

/-- `M_2PI` from `bsp.hpp` (`6.28318530717958647692f`), idealised as `2π`. -/
noncomputable def M_2PI : ℝ := 2 * π

/-- `Type::CycleValue::Calculate`: `value = fmodf(value, M_2PI); if (value < 0)
value += M_2PI;` — in exact arithmetic this is reduction modulo `2π` into
`[0, 2π)`. -/
noncomputable def cycleCalculate (value : ℝ) : ℝ :=
  value - M_2PI * ⌊value / M_2PI⌋

/-- `Type::CycleValue` — a float kept in `[0, 2π)` by construction. -/
structure CycleValue where
  val : ℝ

/-- The `CycleValue(const float&)` converting constructor (also the float/double
assignment operators): stores `Calculate(value)`. -/
noncomputable def CycleValue.mk' (value : ℝ) : CycleValue :=
  ⟨cycleCalculate value⟩

/-- The default constructor `CycleValue()` — value `0.0f`. -/
def CycleValue.zero : CycleValue := ⟨0⟩

/-- The copy constructor `CycleValue(const CycleValue&)`: the `while` loops
subtract `M_2PI` while the value is `≥ M_2PI` and add it while `< 0`, i.e. in
exact arithmetic they also reduce modulo `2π` into `[0, 2π)`. -/
noncomputable def CycleValue.copy (c : CycleValue) : CycleValue :=
  ⟨cycleCalculate c.val⟩

/-- `CycleValue::operator+(const float&)`: `CycleValue(value + value_)`. -/
noncomputable def CycleValue.add (c : CycleValue) (value : ℝ) : CycleValue :=
  CycleValue.mk' (value + c.val)

/-- `CycleValue::operator+(const CycleValue&)`:
`CycleValue(value.value_ + value_)`. -/
noncomputable def CycleValue.addCycle (c d : CycleValue) : CycleValue :=
  CycleValue.mk' (d.val + c.val)

/-- `CycleValue::operator+=`: `value_ = Calculate(value + value_)`. -/
noncomputable def CycleValue.addAssign (c : CycleValue) (value : ℝ) : CycleValue :=
  ⟨cycleCalculate (value + c.val)⟩

/-- Unary `CycleValue::operator-`: `CycleValue(M_2PI - value_)`. -/
noncomputable def CycleValue.neg (c : CycleValue) : CycleValue :=
  CycleValue.mk' (M_2PI - c.val)

/-- The `while` loops of the binary `CycleValue::operator-`: shift by `±2π`
until the result lies in `[-π, π)`. In exact arithmetic the loops compute the
unique representative `d - 2π * ⌊(d + π) / 2π⌋` of `d` in `[-π, π)`. -/
noncomputable def wrapToPi (d : ℝ) : ℝ :=
  d - M_2PI * ⌊(d + π) / M_2PI⌋

/-- `CycleValue::operator-(const CycleValue&)`: `ans = value_ - value.value_`
wrapped into `[-π, π)`. -/
noncomputable def CycleValue.sub (c d : CycleValue) : ℝ :=
  wrapToPi (c.val - d.val)

/-- `CycleValue::operator-(const float&)`: first `Calculate`s the raw operand,
then proceeds as the `CycleValue` overload. -/
noncomputable def CycleValue.subFloat (c : CycleValue) (rawValue : ℝ) : ℝ :=
  wrapToPi (c.val - cycleCalculate rawValue)

/-- `Type::Eulr` — yaw/pitch/roll, each a `CycleValue`. -/
structure Eulr where
  yaw : CycleValue
  pit : CycleValue
  rol : CycleValue

/-! ## `AHRS::Update` (`comp_ahrs.hpp`)

`Update` reads the latest `accel_`/`gyro_` samples and the timestamps.  In the
source, `dt_` is the wall-clock delta `(now_ - last_wakeup_) / 1e6` and the
gain switch compares `now_.count() - start_.count()` (microseconds since
construction) with `1000000`.  We model one call as a pure function of the
current quaternion, the two samples, `dt` (seconds, real) and `elapsedUs`
(microseconds since filter construction, natural number). -/

/-- The Madgwick correction gain selection inside `AHRS::Update`:
`if (now_.count() - start_.count() > 1000000) beta_imu = 0.07f; else
beta_imu = 10.0f;`. -/
def betaImu (elapsedUs : ℕ) : ℝ :=
  if elapsedUs > 1000000 then 0.07 else 10.0

/-- The quaternion derivative from the gyroscope alone (the `q_dot1..q_dot4`
assignments of `AHRS::Update` before the accelerometer feedback). -/
def gyroQuatDot (q : Quaternion) (gyro : Vector3) : Quaternion :=
  let gx := gyro.x
  let gy := gyro.y
  let gz := gyro.z
  ⟨0.5 * (-q.q1 * gx - q.q2 * gy - q.q3 * gz),
   0.5 * (q.q0 * gx + q.q2 * gz - q.q3 * gy),
   0.5 * (q.q0 * gy - q.q1 * gz + q.q3 * gx),
   0.5 * (q.q0 * gz + q.q1 * gy - q.q2 * gx)⟩

/-- The normalised gradient-descent corrective step `s0..s3` of
`AHRS::Update`, computed from the current quaternion and the (already
normalised) accelerometer direction. -/
noncomputable def madgwickStep (q : Quaternion) (ax ay az : ℝ) : Quaternion :=
  let q2q0 := 2.0 * q.q0
  let q2q1 := 2.0 * q.q1
  let q2q2 := 2.0 * q.q2
  let q2q3 := 2.0 * q.q3
  let q4q0 := 4.0 * q.q0
  let q4q1 := 4.0 * q.q1
  let q4q2 := 4.0 * q.q2
  let q8q1 := 8.0 * q.q1
  let q8q2 := 8.0 * q.q2
  let q0q0 := q.q0 * q.q0
  let q1q1 := q.q1 * q.q1
  let q2q2s := q.q2 * q.q2
  let q3q3 := q.q3 * q.q3
  let s0 := q4q0 * q2q2s + q2q2 * ax + q4q0 * q1q1 - q2q1 * ay
  let s1 := q4q1 * q3q3 - q2q3 * ax + 4.0 * q0q0 * q.q1 - q2q0 * ay -
      q4q1 + q8q1 * q1q1 + q8q1 * q2q2s + q4q1 * az
  let s2 := 4.0 * q0q0 * q.q2 + q2q0 * ax + q4q2 * q3q3 - q2q3 * ay -
      q4q2 + q8q2 * q1q1 + q8q2 * q2q2s + q4q2 * az
  let s3 := 4.0 * q1q1 * q.q3 - q2q1 * ax + 4.0 * q2q2s * q.q3 - q2q2 * ay
  let recipNorm := 1 / Real.sqrt (s0 * s0 + s1 * s1 + s2 * s2 + s3 * s3)
  ⟨s0 * recipNorm, s1 * recipNorm, s2 * recipNorm, s3 * recipNorm⟩

/-- The quaternion derivative after the (conditional) accelerometer feedback:
if the accelerometer reading is exactly `(0,0,0)` the feedback block is
skipped, otherwise the accelerometer is normalised, the corrective step
computed and `q_dot -= beta_imu * s` applied. -/
noncomputable def quatDot (q : Quaternion) (accel gyro : Vector3)
    (elapsedUs : ℕ) : Quaternion :=
  let qd := gyroQuatDot q gyro
  if accel.x = 0 ∧ accel.y = 0 ∧ accel.z = 0 then qd
  else
    let recipNorm :=
      1 / Real.sqrt (accel.x * accel.x + accel.y * accel.y + accel.z * accel.z)
    let s := madgwickStep q (accel.x * recipNorm) (accel.y * recipNorm)
        (accel.z * recipNorm)
    let beta := betaImu elapsedUs
    ⟨qd.q0 - beta * s.q0, qd.q1 - beta * s.q1,
     qd.q2 - beta * s.q2, qd.q3 - beta * s.q3⟩

/-- The pre-normalisation quaternion of one `AHRS::Update` call: the state
after `quat_ += q_dot * dt_` and before the final renormalisation. -/
noncomputable def preNormQuat (q : Quaternion) (accel gyro : Vector3)
    (dt : ℝ) (elapsedUs : ℕ) : Quaternion :=
  let qd := quatDot q accel gyro elapsedUs
  ⟨q.q0 + qd.q0 * dt, q.q1 + qd.q1 * dt, q.q2 + qd.q2 * dt, q.q3 + qd.q3 * dt⟩

/-- One full `AHRS::Update` call: derivative, conditional feedback,
integration, renormalisation. -/
noncomputable def ahrsUpdate (q : Quaternion) (accel gyro : Vector3)
    (dt : ℝ) (elapsedUs : ℕ) : Quaternion :=
  (preNormQuat q accel gyro dt elapsedUs).renorm

/-- A single filter input: the latest accelerometer and gyroscope samples,
the wall-clock `dt` and the microseconds elapsed since construction. -/
structure AhrsInput where
  accel : Vector3
  gyro : Vector3
  dt : ℝ
  elapsedUs : ℕ

/-- The gyro-only filter cycle described by the spec for a degenerate
accelerometer reading: derivative from the gyroscope alone, integration,
renormalisation — no accelerometer access at all. -/
noncomputable def gyroOnlyUpdate (q : Quaternion) (gyro : Vector3)
    (dt : ℝ) : Quaternion :=
  let qd := gyroQuatDot q gyro
  Quaternion.renorm
    ⟨q.q0 + qd.q0 * dt, q.q1 + qd.q1 * dt, q.q2 + qd.q2 * dt, q.q3 + qd.q3 * dt⟩

/-- Run a sequence of `Update` calls from a starting quaternion. -/
noncomputable def ahrsRun (q : Quaternion) : List AhrsInput → Quaternion
  | [] => q
  | i :: rest => ahrsRun (ahrsUpdate q i.accel i.gyro i.dt i.elapsedUs) rest

/-- The side condition of the spec's unit-norm property: along the run, the
pre-normalisation quaternion of every `Update` call has nonzero norm. -/
noncomputable def preNormOk (q : Quaternion) : List AhrsInput → Prop
  | [] => True
  | i :: rest =>
      Quaternion.normSq (preNormQuat q i.accel i.gyro i.dt i.elapsedUs) ≠ 0 ∧
      preNormOk (ahrsUpdate q i.accel i.gyro i.dt i.elapsedUs) rest

/-! ## `AHRS::GetEulr` (variant in `src/unnamed/part_008`)

`GetEulr` converts the quaternion state to Euler angles and stores them into
the `Type::Eulr` fields (each a `CycleValue`, so each stored angle is wrapped
by `Calculate`). `std::atan2` is embedded by its piecewise definition;
`Real.arcsin` agrees with `std::asin` on `[-1, 1]`, and the theorems below
only use it on that interval. -/

/-- `std::atan2(y, x)`: the standard piecewise two-argument arctangent. -/
noncomputable def atan2 (y x : ℝ) : ℝ :=
  if 0 < x then Real.arctan (y / x)
  else if x < 0 ∧ 0 ≤ y then Real.arctan (y / x) + π
  else if x < 0 ∧ y < 0 then Real.arctan (y / x) - π
  else if x = 0 ∧ 0 < y then π / 2
  else if x = 0 ∧ y < 0 then -(π / 2)
  else 0

/-- The argument of `std::asin` in `GetEulr`:
`2 * (quat_.q0 * quat_.q2 - quat_.q1 * quat_.q3)`. -/
def pitchSinTerm (q : Quaternion) : ℝ :=
  2 * (q.q0 * q.q2 - q.q1 * q.q3)

/-- `GetEulr`'s yaw:
`atan2(2*(q0*q3 + q1*q2), 1 - 2*(q3*q3 + q2*q2))` — atan2 about z. -/
noncomputable def getEulrYaw (q : Quaternion) : ℝ :=
  atan2 (2 * (q.q0 * q.q3 + q.q1 * q.q2)) (1 - 2 * (q.q3 * q.q3 + q.q2 * q.q2))

/-- `GetEulr`'s pitch: `asin(2*(q0*q2 - q1*q3))`. -/
noncomputable def getEulrPitch (q : Quaternion) : ℝ :=
  Real.arcsin (pitchSinTerm q)

/-- `GetEulr`'s roll:
`atan2(2*(q0*q1 + q2*q3), 1 - 2*(q2*q2 + q1*q1))` — atan2 about x. -/
noncomputable def getEulrRoll (q : Quaternion) : ℝ :=
  atan2 (2 * (q.q0 * q.q1 + q.q2 * q.q3)) (1 - 2 * (q.q2 * q.q2 + q.q1 * q.q1))

/-- `AHRS::GetEulr`: the three converted angles stored into `eulr_`'s
`CycleValue` fields. -/
noncomputable def getEulr (q : Quaternion) : Eulr :=
  ⟨CycleValue.mk' (getEulrYaw q), CycleValue.mk' (getEulrPitch q),
   CycleValue.mk' (getEulrRoll q)⟩

/-- Modelled from the spec: the same conversion with the `asin` input
"clamped to `[-1, 1]` before evaluation", the wording of §4.1 of the spec
(`GetOrientation / Euler conversion`). -/
noncomputable def getEulrClampedSpec (q : Quaternion) : Eulr :=
  ⟨CycleValue.mk' (getEulrYaw q),
   CycleValue.mk' (Real.arcsin (min 1 (max (-1) (pitchSinTerm q)))),
   CycleValue.mk' (getEulrRoll q)⟩

/-! ## `AHRS::AccelRemoveGravity` (`src/unnamed/part_002`)

The rotation helpers come from the third-party `LibXR`/Eigen library, which is
not vendored in the repository (only `third_party/libxr/CMakeLists.txt` is);
they are modelled from the spec's description of the algorithm. -/

/-- Modelled from the spec: "rotate `rawAccel` from body frame to world frame
using the quaternion's rotation matrix" — the standard rotation matrix of the
unit quaternion `(q0, q1, q2, q3) = (w, x, y, z)` applied to a vector
(`LibXR::Quaternion::toRotationMatrix`, a third-party routine missing from
the sources). -/
def quatRotate (q : Quaternion) (v : Vector3) : Vector3 :=
  ⟨(1 - 2 * (q.q2 * q.q2 + q.q3 * q.q3)) * v.x +
      2 * (q.q1 * q.q2 - q.q0 * q.q3) * v.y +
      2 * (q.q1 * q.q3 + q.q0 * q.q2) * v.z,
   2 * (q.q1 * q.q2 + q.q0 * q.q3) * v.x +
      (1 - 2 * (q.q1 * q.q1 + q.q3 * q.q3)) * v.y +
      2 * (q.q2 * q.q3 - q.q0 * q.q1) * v.z,
   2 * (q.q1 * q.q3 - q.q0 * q.q2) * v.x +
      2 * (q.q2 * q.q3 + q.q0 * q.q1) * v.y +
      (1 - 2 * (q.q1 * q.q1 + q.q2 * q.q2)) * v.z⟩

/-- The quaternion conjugate — the inverse of a unit quaternion. -/
def Quaternion.conj (q : Quaternion) : Quaternion :=
  ⟨q.q0, -q.q1, -q.q2, -q.q3⟩

/-- Modelled from the spec: "rotate the resulting world-frame vector back into
body frame using the quaternion's inverse" (`q.inverse() * accel_world` in the
source; for the unit quaternion state the inverse is the conjugate). -/
def quatInvRotate (q : Quaternion) (v : Vector3) : Vector3 :=
  quatRotate q.conj v

/-- `GRAVITY` from `bsp.hpp`: `9.84f`, the calibrated gravity constant. -/
def GRAVITY : ℝ := 9.84

/-- `AHRS::AccelRemoveGravity`: rotate the raw acceleration to world frame,
subtract `GRAVITY` from the world-frame Z component, rotate back with the
quaternion's inverse. -/
def accelRemoveGravity (q : Quaternion) (accel : Vector3) : Vector3 :=
  let accelWorld := quatRotate q accel
  let corrected : Vector3 := ⟨accelWorld.x, accelWorld.y, accelWorld.z - GRAVITY⟩
  quatInvRotate q corrected

/-! ## `AHRS::RemoveYaw` (`src/unnamed/part_002`) -/

/-- Modelled from the spec: "convert that synthetic Euler triple back into a
quaternion" — the standard roll/pitch/yaw Euler-to-quaternion conversion
(`LibXR::EulerAngle::toQuaternion`, a third-party routine missing from the
sources). -/
noncomputable def eulerToQuat (rol pit yaw : ℝ) : Quaternion :=
  let cr := Real.cos (rol / 2)
  let sr := Real.sin (rol / 2)
  let cp := Real.cos (pit / 2)
  let sp := Real.sin (pit / 2)
  let cy := Real.cos (yaw / 2)
  let sy := Real.sin (yaw / 2)
  ⟨cr * cp * cy + sr * sp * sy,
   sr * cp * cy - cr * sp * sy,
   cr * sp * cy + sr * cp * sy,
   cr * cp * sy - sr * sp * cy⟩

/-- The Euler part of `AHRS::RemoveYaw`: pitch and roll are copied by the
default `CycleValue` copy assignment (value copied unchanged), yaw is assigned
the float `0.0f` (stored as `Calculate(0)`). -/
noncomputable def removeYawEulr (e : Eulr) : Eulr :=
  ⟨CycleValue.mk' 0, e.pit, e.rol⟩

/-- The quaternion part of `AHRS::RemoveYaw`: the yaw-stripped Euler triple
converted back to a quaternion. -/
noncomputable def removeYawQuat (e : Eulr) : Quaternion :=
  let ew := removeYawEulr e
  eulerToQuat ew.rol.val ew.pit.val ew.yaw.val

/-! ## The sample scheduler (`AHRS` constructor callbacks and `ThreadTask`)

In `src/unnamed/part_002`, the accelerometer callback only `memcpy`s the
sample into `accel_`; the gyro callback `memcpy`s into `gyro_` **and**
releases the binary semaphore `ready_`; `ThreadTask` loops
`ready_.acquire(); Update(); ...`.  The interleaved behaviour is modelled as a
transition system: the binary semaphore is a saturating `Bool` (a second
`release` before an `acquire` leaves one pending signal), `acquire` with no
pending signal blocks (no transition), and each completed cycle is logged with
the sample pair it consumed. -/

/-- Scheduler state: latest samples, the binary readiness semaphore, and the
log of `(accel, gyro)` pairs consumed by completed `Update` cycles. -/
structure SchedState where
  accel : Vector3
  gyro : Vector3
  pending : Bool
  updates : List (Vector3 × Vector3)

/-- Scheduler events: the two sensor callbacks and a wakeup attempt of the
filter task. -/
inductive SchedEvent where
  | accelCb (v : Vector3)
  | gyroCb (v : Vector3)
  | wake

/-- One scheduler transition. -/
def schedStep (s : SchedState) : SchedEvent → SchedState
  | .accelCb v => { s with accel := v }
  | .gyroCb v => { s with gyro := v, pending := true }
  | .wake =>
      if s.pending then
        { s with pending := false, updates := s.updates ++ [(s.accel, s.gyro)] }
      else s

/-- Run a sequence of scheduler events. -/
def schedRun (s : SchedState) (es : List SchedEvent) : SchedState :=
  es.foldl schedStep s

end FluxSand

namespace FluxSand

/-! ### Range lemmas for the cyclic reductions -/

lemma two_pi_pos : (0 : ℝ) < M_2PI := by
  have := Real.pi_pos
  unfold M_2PI
  linarith

/-- `Calculate` lands in `[0, 2π)`. -/
lemma cycleCalculate_mem (x : ℝ) :
    0 ≤ cycleCalculate x ∧ cycleCalculate x < M_2PI := by
  have hpos := two_pi_pos
  have h1 : (⌊x / M_2PI⌋ : ℝ) ≤ x / M_2PI := Int.floor_le _
  have h2 : x / M_2PI < ⌊x / M_2PI⌋ + 1 := Int.lt_floor_add_one _
  constructor
  · have := (mul_le_mul_of_nonneg_left h1 hpos.le)
    have hx : M_2PI * (x / M_2PI) = x := by
      field_simp
    unfold cycleCalculate
    nlinarith
  · have := (mul_lt_mul_of_pos_left h2 hpos)
    have hx : M_2PI * (x / M_2PI) = x := by
      field_simp
    unfold cycleCalculate
    nlinarith

/-- `wrapToPi` lands in `[-π, π)`. -/
lemma wrapToPi_mem (d : ℝ) : -π ≤ wrapToPi d ∧ wrapToPi d < π := by
  have hpos := two_pi_pos
  have h1 : (⌊(d + π) / M_2PI⌋ : ℝ) ≤ (d + π) / M_2PI := Int.floor_le _
  have h2 : (d + π) / M_2PI < ⌊(d + π) / M_2PI⌋ + 1 := Int.lt_floor_add_one _
  have hx : M_2PI * ((d + π) / M_2PI) = d + π := by
    field_simp
  have hpi : M_2PI = 2 * π := rfl
  constructor
  · have := mul_lt_mul_of_pos_left h2 hpos
    unfold wrapToPi
    nlinarith
  · have := mul_le_mul_of_nonneg_left h1 hpos.le
    unfold wrapToPi
    nlinarith

/-- If `x` is already in `[0, 2π)` then `Calculate` is the identity. -/
lemma cycleCalculate_eq_self {x : ℝ} (h0 : 0 ≤ x) (h1 : x < M_2PI) :
    cycleCalculate x = x := by
  have hpos := two_pi_pos
  have : ⌊x / M_2PI⌋ = 0 := by
    rw [Int.floor_eq_zero_iff]
    constructor
    · exact div_nonneg h0 hpos.le
    · rw [div_lt_one hpos]
      exact h1
  unfold cycleCalculate
  rw [this]
  push_cast
  ring

end FluxSand

namespace FluxSand

/-! ### Renormalisation lemmas -/

lemma normSq_nonneg (q : Quaternion) : 0 ≤ q.normSq := by
  unfold Quaternion.normSq
  nlinarith [mul_self_nonneg q.q0, mul_self_nonneg q.q1,
    mul_self_nonneg q.q2, mul_self_nonneg q.q3]

lemma renorm_normSq {q : Quaternion} (h : q.normSq ≠ 0) :
    q.renorm.normSq = 1 := by
  have hS : 0 ≤ q.normSq := normSq_nonneg q
  have hSpos : 0 < q.normSq := hS.lt_of_ne (Ne.symm h)
  have hrr : Real.sqrt q.normSq * Real.sqrt q.normSq = q.normSq :=
    Real.mul_self_sqrt hS
  have hr : Real.sqrt q.normSq ≠ 0 := by
    have := Real.sqrt_pos.mpr hSpos
    linarith
  unfold Quaternion.renorm Quaternion.normSq at *
  field_simp

lemma renorm_of_normSq_one {q : Quaternion} (h : q.normSq = 1) :
    q.renorm = q := by
  unfold Quaternion.renorm
  rw [h, Real.sqrt_one]
  simp

lemma ahrsUpdate_norm_one (q : Quaternion) (accel gyro : Vector3) (dt : ℝ)
    (e : ℕ) (h : (preNormQuat q accel gyro dt e).normSq ≠ 0) :
    (ahrsUpdate q accel gyro dt e).norm = 1 := by
  unfold ahrsUpdate Quaternion.norm
  rw [renorm_normSq h, Real.sqrt_one]

/-- **C1.** For every input sequence along which the pre-normalisation
quaternion never has zero norm, after every `AHRS::Update` call the quaternion
state has Euclidean norm 1 within `1e-5` (in the exact-arithmetic model the
norm is exactly 1). -/
theorem unit_norm_invariant (q : Quaternion) (l : List AhrsInput)
    (hok : preNormOk q l) :
    ∀ n, 0 < n → n ≤ l.length →
      |(ahrsRun q (l.take n)).norm - 1| ≤ 1 / 100000 := by
  induction l generalizing q with
  | nil =>
      intro n hn hlen
      simp at hlen
      omega
  | cons i rest ih =>
      intro n hn hlen
      obtain ⟨h1, h2⟩ := hok
      obtain ⟨m, rfl⟩ : ∃ m, n = m + 1 := ⟨n - 1, by omega⟩
      rw [List.take_succ_cons]
      show |(ahrsRun (ahrsUpdate q i.accel i.gyro i.dt i.elapsedUs)
        (rest.take m)).norm - 1| ≤ 1 / 100000
      rcases Nat.eq_zero_or_pos m with hm | hm
      · subst hm
        simp only [List.take_zero]
        show |(ahrsUpdate q i.accel i.gyro i.dt i.elapsedUs).norm - 1| ≤
          1 / 100000
        rw [ahrsUpdate_norm_one q i.accel i.gyro i.dt i.elapsedUs h1]
        norm_num
      · have hlen' : m ≤ rest.length := by
          simp only [List.length_cons] at hlen
          omega
        exact ih _ h2 m hm hlen'

/-- Witness for `unit_norm_invariant` at the filter's actual seed state and a
single all-zero sample with `dt = 1`. -/
theorem unit_norm_invariant_witness :
    preNormOk ⟨-1, 0, 0, 0⟩ [⟨⟨0, 0, 0⟩, ⟨0, 0, 0⟩, 1, 0⟩] ∧
    |(ahrsRun ⟨-1, 0, 0, 0⟩
        ([⟨⟨0, 0, 0⟩, ⟨0, 0, 0⟩, 1, 0⟩].take 1)).norm - 1| ≤ 1 / 100000 := by
  have hok : preNormOk (⟨-1, 0, 0, 0⟩ : Quaternion)
      [⟨⟨0, 0, 0⟩, ⟨0, 0, 0⟩, (1 : ℝ), (0 : ℕ)⟩] := by
    refine ⟨?_, trivial⟩
    simp [preNormQuat, quatDot, gyroQuatDot, Quaternion.normSq]
  exact ⟨hok, unit_norm_invariant _ _ hok 1 (by norm_num) (by norm_num)⟩

/-- **C2.** The correction gain equals `10.0` when at most `1.000000 s`
(`1000000 µs`) has elapsed since filter construction and `0.07` strictly
after; a single threshold, directly by the structure of `betaImu`. -/
theorem beta_gain_switch (e : ℕ) :
    (e ≤ 1000000 → betaImu e = 10.0) ∧ (1000000 < e → betaImu e = 0.07) := by
  constructor
  · intro h
    unfold betaImu
    rw [if_neg (by omega : ¬ e > 1000000)]
  · intro h
    unfold betaImu
    rw [if_pos (by omega : e > 1000000)]

/-- Witness for `beta_gain_switch` on both sides of the threshold. -/
theorem beta_gain_switch_witness :
    betaImu 1000000 = 10.0 ∧ betaImu 1000001 = 0.07 :=
  ⟨(beta_gain_switch 1000000).1 (by norm_num),
   (beta_gain_switch 1000001).2 (by norm_num)⟩

/-- **C4.** An `Update` call whose accelerometer input is exactly `(0,0,0)`
skips the correction block for that cycle and coincides with the gyro-only
cycle (derivative from gyro alone, integrate, renormalise); the accelerometer
normalisation division is in the skipped branch and is never evaluated. -/
theorem zero_accel_gyro_only (q : Quaternion) (gyro : Vector3) (dt : ℝ)
    (e : ℕ) :
    ahrsUpdate q ⟨0, 0, 0⟩ gyro dt e = gyroOnlyUpdate q gyro dt := by
  unfold ahrsUpdate gyroOnlyUpdate preNormQuat quatDot
  simp

/-- **C10.** With both inputs exactly zero and a unit-norm starting
quaternion, `Update` is the identity on the quaternion state, for any `dt`. -/
theorem zero_input_identity (q : Quaternion) (dt : ℝ) (e : ℕ)
    (h : q.normSq = 1) :
    ahrsUpdate q ⟨0, 0, 0⟩ ⟨0, 0, 0⟩ dt e = q := by
  have hpre : preNormQuat q ⟨0, 0, 0⟩ ⟨0, 0, 0⟩ dt e = q := by
    simp [preNormQuat, quatDot, gyroQuatDot]
  unfold ahrsUpdate
  rw [hpre]
  exact renorm_of_normSq_one h

/-- Witness for `zero_input_identity` at the identity quaternion, `dt = 5`. -/
theorem zero_input_identity_witness :
    ahrsUpdate ⟨1, 0, 0, 0⟩ ⟨0, 0, 0⟩ ⟨0, 0, 0⟩ 5 0 = ⟨1, 0, 0, 0⟩ :=
  zero_input_identity ⟨1, 0, 0, 0⟩ 5 0 (by norm_num [Quaternion.normSq])

/-- **C3.** For `a, b ∈ [0, 2π)`, `CycleValue(a) - CycleValue(b)` lies in
`[-π, π)`; in particular `CycleValue(359° in rad) - CycleValue(1° in rad)`
equals exactly `-2°` in radians (`-π/90`), not `+358°`. -/
theorem cycle_sub_shortest_path (a b : ℝ) (ha0 : 0 ≤ a) (ha1 : a < M_2PI)
    (hb0 : 0 ≤ b) (hb1 : b < M_2PI) :
    (-π ≤ (CycleValue.mk' a).sub (CycleValue.mk' b) ∧
      (CycleValue.mk' a).sub (CycleValue.mk' b) < π) ∧
    (CycleValue.mk' (359 * π / 180)).sub (CycleValue.mk' (π / 180)) =
      -(2 * π / 180) := by
  constructor
  · exact wrapToPi_mem _
  · have hpi := Real.pi_pos
    have h359 : cycleCalculate (359 * π / 180) = 359 * π / 180 := by
      apply cycleCalculate_eq_self
      · positivity
      · unfold M_2PI
        nlinarith
    have h1 : cycleCalculate (π / 180) = π / 180 := by
      apply cycleCalculate_eq_self
      · positivity
      · unfold M_2PI
        nlinarith
    unfold CycleValue.sub CycleValue.mk'
    rw [h359, h1]
    unfold wrapToPi M_2PI
    have hfl : ⌊(359 * π / 180 - π / 180 + π) / (2 * π)⌋ = 1 := by
      have : (359 * π / 180 - π / 180 + π) / (2 * π) = 269 / 180 := by
        field_simp
        ring
      rw [this, Int.floor_eq_iff]
      norm_num
    rw [hfl]
    push_cast
    ring

/-- Witness for `cycle_sub_shortest_path` at `a = 3`, `b = 1`. -/
theorem cycle_sub_shortest_path_witness :
    (-π ≤ (CycleValue.mk' 3).sub (CycleValue.mk' 1) ∧
      (CycleValue.mk' 3).sub (CycleValue.mk' 1) < π) ∧
    (CycleValue.mk' (359 * π / 180)).sub (CycleValue.mk' (π / 180)) =
      -(2 * π / 180) := by
  have hpi : (3 : ℝ) < π := Real.pi_gt_three
  exact cycle_sub_shortest_path 3 1 (by norm_num)
    (by unfold M_2PI; linarith) (by norm_num) (by unfold M_2PI; linarith)

/-- **C8.** Every `CycleValue` produced by a constructor, assignment or
arithmetic operation has its internal value in `[0, 2π)`: `Calculate` maps
every real into that range, and the default constructor, converting
constructor/assignment, copy constructor, all `operator+`/`operator+=`
overloads and the unary `operator-` produce values in that range. -/
theorem cycle_value_range_invariant (x : ℝ) (c d : CycleValue) :
    (0 ≤ cycleCalculate x ∧ cycleCalculate x < M_2PI) ∧
    (0 ≤ CycleValue.zero.val ∧ CycleValue.zero.val < M_2PI) ∧
    (0 ≤ (CycleValue.mk' x).val ∧ (CycleValue.mk' x).val < M_2PI) ∧
    (0 ≤ c.copy.val ∧ c.copy.val < M_2PI) ∧
    (0 ≤ (c.add x).val ∧ (c.add x).val < M_2PI) ∧
    (0 ≤ (c.addCycle d).val ∧ (c.addCycle d).val < M_2PI) ∧
    (0 ≤ (c.addAssign x).val ∧ (c.addAssign x).val < M_2PI) ∧
    (0 ≤ c.neg.val ∧ c.neg.val < M_2PI) := by
  refine ⟨cycleCalculate_mem x, ⟨le_refl 0, two_pi_pos⟩, ?_, ?_, ?_, ?_, ?_, ?_⟩
  all_goals exact cycleCalculate_mem _

/-- For a unit quaternion the `asin` argument of `GetEulr` lies in `[-1, 1]`. -/
lemma pitchSinTerm_le_one {q : Quaternion} (h : q.normSq = 1) :
    -1 ≤ pitchSinTerm q ∧ pitchSinTerm q ≤ 1 := by
  unfold Quaternion.normSq at h
  unfold pitchSinTerm
  constructor
  · nlinarith [sq_nonneg (q.q0 + q.q2), sq_nonneg (q.q1 - q.q3)]
  · nlinarith [sq_nonneg (q.q0 - q.q2), sq_nonneg (q.q1 + q.q3)]

/-- **C5.** For every unit quaternion state, `GetEulr` computes yaw as atan2
about z, pitch as asin of the sin term, roll as atan2 about x (by definition
of `getEulr`), the asin argument lies in `[-1, 1]` so no domain error can
occur, and the result coincides with the spec's clamped-before-asin
conversion. -/
theorem get_eulr_clamped (q : Quaternion) (h : q.normSq = 1) :
    (-1 ≤ pitchSinTerm q ∧ pitchSinTerm q ≤ 1) ∧
    getEulr q = getEulrClampedSpec q := by
  obtain ⟨hlo, hhi⟩ := pitchSinTerm_le_one h
  refine ⟨⟨hlo, hhi⟩, ?_⟩
  unfold getEulr getEulrClampedSpec getEulrPitch
  have hclamp : min 1 (max (-1) (pitchSinTerm q)) = pitchSinTerm q := by
    rw [max_eq_right hlo, min_eq_right hhi]
  rw [hclamp]

/-- Witness for `get_eulr_clamped` at the identity quaternion. -/
theorem get_eulr_clamped_witness :
    (-1 ≤ pitchSinTerm ⟨1, 0, 0, 0⟩ ∧ pitchSinTerm ⟨1, 0, 0, 0⟩ ≤ 1) ∧
    getEulr ⟨1, 0, 0, 0⟩ = getEulrClampedSpec ⟨1, 0, 0, 0⟩ :=
  get_eulr_clamped ⟨1, 0, 0, 0⟩ (by norm_num [Quaternion.normSq])

/-- **C6.** With the identity quaternion and raw acceleration
`(0, 0, GRAVITY)`, `AccelRemoveGravity` — rotate to world frame, subtract
`9.84` from world Z, rotate back with the inverse — returns exactly
`(0, 0, 0)`. -/
theorem accel_remove_gravity_at_rest :
    accelRemoveGravity ⟨1, 0, 0, 0⟩ ⟨0, 0, GRAVITY⟩ = ⟨0, 0, 0⟩ := by
  simp only [accelRemoveGravity, quatInvRotate, quatRotate, Quaternion.conj,
    GRAVITY]
  norm_num

/-- **C7.** `RemoveYaw` is idempotent: applying the Euler-side operation twice
yields the same triple as applying it once, the produced yaw is exactly zero,
and the quaternion obtained from the twice-stripped triple equals the one from
the once-stripped triple. -/
theorem remove_yaw_idempotent (e : Eulr) :
    removeYawEulr (removeYawEulr e) = removeYawEulr e ∧
    (removeYawEulr e).yaw.val = 0 ∧
    removeYawQuat (removeYawEulr e) = removeYawQuat e := by
  refine ⟨rfl, ?_, rfl⟩
  show cycleCalculate 0 = 0
  unfold cycleCalculate
  norm_num

/-- **C9.** An accelerometer callback alone never lets a wakeup run a cycle,
and two gyro readiness signals before the task wakes coalesce: the following
two wakeups run exactly one `Update` cycle, using the latest sample pair. -/
theorem gyro_paced_coalescing (s : SchedState) (v g1 g2 : Vector3)
    (h : s.pending = false) :
    (schedRun s [.accelCb v, .wake]).updates = s.updates ∧
    (schedRun s [.gyroCb g1, .gyroCb g2, .wake, .wake]).updates =
      s.updates ++ [(s.accel, g2)] := by
  constructor <;> simp [schedRun, schedStep, h]

/-- Witness for `gyro_paced_coalescing` from an idle scheduler state. -/
theorem gyro_paced_coalescing_witness :
    (schedRun ⟨⟨0, 0, 0⟩, ⟨0, 0, 0⟩, false, []⟩
        [.accelCb ⟨1, 0, 0⟩, .wake]).updates = [] ∧
    (schedRun ⟨⟨0, 0, 0⟩, ⟨0, 0, 0⟩, false, []⟩
        [.gyroCb ⟨0, 1, 0⟩, .gyroCb ⟨0, 0, 1⟩, .wake, .wake]).updates =
      [(⟨0, 0, 0⟩, ⟨0, 0, 1⟩)] := by
  have h := gyro_paced_coalescing ⟨⟨0, 0, 0⟩, ⟨0, 0, 0⟩, false, []⟩
    ⟨1, 0, 0⟩ ⟨0, 1, 0⟩ ⟨0, 0, 1⟩ rfl
  simpa using h
